import Mathlib

/-!
Shallow embedding of `src/popular_sound_synthesis_techniques/sound_synthesis_module.py`.

Machine floats are modelled by `ℚ`; the claims under study are about index
arithmetic, buffer lengths, list slicing and exact affine formulas, where the
Python program's float computations are exact at the inputs considered.
The external library functions `np.sin` and the constant `np.pi` are treated as
uninterpreted parameters (`np_sin : ℚ → ℚ`, `np_pi : ℚ`); the scipy Butterworth
filter of `SubtractiveSynthesis.generate_signal` (lines 64-68) is an external
collaborator and is not embedded — the claims touch only the sawtooth source.
Fallible Python operations (`%` by zero, `range` with zero step,
`np.concatenate` on an empty list) are embedded in `Except String`.
-/

/-- Python `int(q)` on a real number: truncation toward zero (floor for a
nonnegative argument, `-⌊-q⌋ = ⌈q⌉` for a negative one). Phrased with
`Rat.floor` so that it evaluates by kernel reduction. -/
def pyInt (q : ℚ) : ℤ := if 0 ≤ q then q.floor else -((-q).floor)

/-- Python `i % d` on nonnegative integers: raises `ZeroDivisionError` when
`d = 0`, otherwise the remainder. -/
def pyMod (i d : ℕ) : Except String ℕ :=
  if d = 0 then .error "ZeroDivisionError: integer modulo by zero" else .ok (i % d)

/-- Python `range(start, stop, step)`: raises `ValueError` when `step = 0`;
otherwise the arithmetic progression from `start` strictly below (for positive
step) or strictly above (for negative step) `stop`. -/
def pyRange (start stop step : ℤ) : Except String (List ℤ) :=
  if step = 0 then .error "ValueError: range() arg 3 must not be zero"
  else if 0 < step then
    .ok ((List.range ((stop - start + step - 1) / step).toNat).map
      (fun k : ℕ => start + step * (k : ℤ)))
  else
    .ok ((List.range ((start - stop + (-step) - 1) / (-step)).toNat).map
      (fun k : ℕ => start + step * (k : ℤ)))

/-- Python slice-bound normalization for a sequence of length `n`: a negative
index counts from the end, and bounds are clamped to `[0, n]`. -/
def pySliceIdx (n : ℕ) (a : ℤ) : ℕ :=
  if a < 0 then ((n : ℤ) + a).toNat else min a.toNat n

/-- Python `l[a:b]`. -/
def pySlice (l : List ℚ) (a b : ℤ) : List ℚ :=
  (l.take (pySliceIdx l.length b)).drop (pySliceIdx l.length a)

/-- `np.linspace(start, stop, num, endpoint)`: `num` evenly spaced values,
including the endpoint `stop` by default (`endpoint = true`, step
`(stop-start)/(num-1)`), excluding it for `endpoint = false` (step
`(stop-start)/num`). -/
def np_linspace (start stop : ℚ) (num : ℕ) (endpoint : Bool) : List ℚ :=
  (List.range num).map (fun i : ℕ =>
    if endpoint then
      if num ≤ 1 then start else start + (stop - start) * (i : ℚ) / ((num : ℚ) - 1)
    else start + (stop - start) * (i : ℚ) / (num : ℚ))

/-- `np.concatenate(grains)`: raises `ValueError` on an empty list of arrays. -/
def np_concatenate (grains : List (List ℚ)) : Except String (List ℚ) :=
  if grains.isEmpty then .error "ValueError: need at least one array to concatenate"
  else .ok grains.flatten

/-- `np.mod(x, 1)`, the fractional part `x - ⌊x⌋` (in `[0, 1)` also for
negative `x`, as in numpy). Phrased with `Rat.floor` so that it evaluates by
kernel reduction; equals `Int.fract x` (see `np_mod1_eq_fract`). -/
def np_mod1 (x : ℚ) : ℚ := x - x.floor

/-- The sample count `int(sample_rate * duration)` shared by the additive,
subtractive, FM, wavetable and Karplus-Strong generators (lines 32, 62, 96,
125, 184). -/
def num_samples (sample_rate duration : ℚ) : ℕ := (pyInt (sample_rate * duration)).toNat

/-- The time base `np.linspace(0, duration, int(sample_rate * duration),
endpoint=False)` shared by the additive, subtractive and FM generators
(lines 32, 62, 96). -/
def timeBase (sample_rate duration : ℚ) : List ℚ :=
  np_linspace 0 duration (num_samples sample_rate duration) false

/-- `AdditiveSynthesis.__init__` (lines 10-23): stores the four parameters,
performs no validation. -/
structure AdditiveSynthesis where
  frequencies : List ℚ
  amplitudes : List ℚ
  duration : ℚ
  sample_rate : ℚ

/-- `AdditiveSynthesis.generate_signal` (lines 25-36): sums
`a * np.sin(2 * np.pi * f * t)` over `zip(frequencies, amplitudes)` on the
time base. -/
def AdditiveSynthesis.generate_signal (np_sin : ℚ → ℚ) (np_pi : ℚ)
    (s : AdditiveSynthesis) : List ℚ :=
  (timeBase s.sample_rate s.duration).map (fun t =>
    ((s.frequencies.zip s.amplitudes).map
      (fun fa => fa.2 * np_sin (2 * np_pi * fa.1 * t))).sum)

/-- `SubtractiveSynthesis.__init__` (lines 40-53): stores the four parameters,
performs no validation. -/
structure SubtractiveSynthesis where
  frequency : ℚ
  duration : ℚ
  sample_rate : ℚ
  cutoff : ℚ

/-- The sawtooth sample `0.5 * (1 - np.mod(t * frequency, 1))` of line 63. -/
def sawtooth_sample (frequency t : ℚ) : ℚ := 1/2 * (1 - np_mod1 (t * frequency))

/-- The sawtooth source buffer of `SubtractiveSynthesis.generate_signal`
(lines 62-63); the subsequent scipy filtering (lines 64-68) is external and
not embedded. -/
def SubtractiveSynthesis.sawtooth_wave (s : SubtractiveSynthesis) : List ℚ :=
  (timeBase s.sample_rate s.duration).map (fun t => 1/2 * (1 - np_mod1 (t * s.frequency)))

/-- `FMSynthesis.__init__` (lines 72-87): stores the five parameters, performs
no validation. -/
structure FMSynthesis where
  carrier_freq : ℚ
  modulator_freq : ℚ
  modulation_index : ℚ
  duration : ℚ
  sample_rate : ℚ

/-- `FMSynthesis.generate_signal` (lines 89-99):
`np.sin(2π * carrier_freq * t + np.sin(2π * modulator_freq * t) * modulation_index)`
on the time base. -/
def FMSynthesis.generate_signal (np_sin : ℚ → ℚ) (np_pi : ℚ)
    (s : FMSynthesis) : List ℚ :=
  (timeBase s.sample_rate s.duration).map (fun t =>
    np_sin (2 * np_pi * s.carrier_freq * t +
      np_sin (2 * np_pi * s.modulator_freq * t) * s.modulation_index))

/-- `WavetableSynthesis.__init__` (lines 103-116): stores the four parameters,
performs no validation. -/
structure WavetableSynthesis where
  wavetable : List ℚ
  frequency : ℚ
  duration : ℚ
  sample_rate : ℚ

/-- `WavetableSynthesis.generate_signal` (lines 118-129):
`phase = np.linspace(0, 1, num_samples) * frequency` (endpoint INCLUDED, the
numpy default), wrapped by `np.mod(phase, 1)`, scaled by the table length and
truncated to an index. -/
def WavetableSynthesis.generate_signal (w : WavetableSynthesis) : List ℚ :=
  ((np_linspace 0 1 (num_samples w.sample_rate w.duration) true).map
    (fun p => pyInt (np_mod1 (p * w.frequency) * w.wavetable.length))).map
    (fun i => w.wavetable.getD i.toNat 0)

/-- The wavetable output sample as the spec words it (spec-side definition,
for comparison with `WavetableSynthesis.generate_signal`): at index `i` of `n`
output samples, read `wavetable[floor(frac((i / n) * frequency) * L)]`. -/
def wavetableSpecSample (w : WavetableSynthesis) (i n : ℕ) : ℚ :=
  w.wavetable.getD
    (pyInt (np_mod1 (((i : ℚ) / (n : ℚ)) * w.frequency) * w.wavetable.length)).toNat 0

/-- `GranularSynthesis.__init__` (lines 133-146): stores the four parameters,
performs no validation. -/
structure GranularSynthesis where
  signal : List ℚ
  grain_size : ℤ
  overlap : ℚ
  sample_rate : ℚ

/-- `GranularSynthesis.generate_signal` (lines 148-160): grains
`signal[start : start + grain_size]` for `start` in
`range(0, len(signal) - grain_size, int(grain_size * (1 - overlap)))`,
concatenated by `np.concatenate`. -/
def GranularSynthesis.generate_signal (g : GranularSynthesis) : Except String (List ℚ) := do
  let starts ← pyRange 0 ((g.signal.length : ℤ) - g.grain_size)
    (pyInt ((g.grain_size : ℚ) * (1 - g.overlap)))
  np_concatenate (starts.map (fun start => pySlice g.signal start (start + g.grain_size)))

/-- `KarplusStrong.__init__` (lines 164-175): stores the three parameters,
performs no validation. -/
structure KarplusStrong where
  frequency : ℚ
  duration : ℚ
  sample_rate : ℚ

/-- `int(self.sample_rate / self.frequency)` of line 185. -/
def KarplusStrong.delay_length (k : KarplusStrong) : ℤ :=
  pyInt (k.sample_rate / k.frequency)

/-- `np.random.rand(delay_length) * 2 - 1` of line 186, with the random stream
injected as `rand : ℕ → ℚ` (each `rand j` models a uniform draw in `[0, 1)`). -/
def KarplusStrong.buffer (rand : ℕ → ℚ) (k : KarplusStrong) : List ℚ :=
  (List.range k.delay_length.toNat).map (fun j => rand j * 2 - 1)

/-- The loop of lines 188-190: at step `i`, emit `buffer[i % D]`, then set
`buffer[i % D] = 0.5 * (buffer[i % D] + buffer[(i+1) % D])`. Returns the
emitted samples together with the final buffer; `i % D` raises on `D = 0`. -/
def ks_loop (D : ℕ) : ℕ → ℕ → List ℚ → Except String (List ℚ × List ℚ)
  | 0, _, buf => .ok ([], buf)
  | n + 1, i, buf =>
    match pyMod i D, pyMod (i + 1) D with
    | .error e, _ => .error e
    | .ok _, .error e => .error e
    | .ok idx, .ok idx2 =>
      match ks_loop D n (i + 1) (buf.set idx ((buf.getD idx 0 + buf.getD idx2 0) / 2)) with
      | .error e => .error e
      | .ok res => .ok (buf.getD idx 0 :: res.1, res.2)

/-- `KarplusStrong.generate_signal` (lines 177-191): run the feedback loop for
`int(sample_rate * duration)` steps over the random initial buffer and return
the emitted samples. -/
def KarplusStrong.generate_signal (rand : ℕ → ℚ) (k : KarplusStrong) :
    Except String (List ℚ) :=
  (ks_loop k.delay_length.toNat (num_samples k.sample_rate k.duration) 0
    (k.buffer rand)).map Prod.fst

/-! ## Basic lemmas about the embedded primitives -/

/-- `Rat.floor` agrees with the `Int.floor` of the `FloorRing` instance. -/
theorem ratFloor_eq_floor (q : ℚ) : q.floor = ⌊q⌋ :=
  (Rat.floor_def' q).trans Rat.floor_def.symm

/-- On nonnegative arguments, Python `int` is the floor. -/
theorem pyInt_of_nonneg {q : ℚ} (h : 0 ≤ q) : pyInt q = ⌊q⌋ := by
  unfold pyInt
  rw [if_pos h, ratFloor_eq_floor]

/-- `np.mod(x, 1)` is the fractional part. -/
theorem np_mod1_eq_fract (x : ℚ) : np_mod1 x = Int.fract x := by
  unfold np_mod1
  rw [ratFloor_eq_floor, Int.self_sub_floor]

/-- A Python `range` with positive step and nonpositive stop is empty. -/
theorem pyRange_pos_nonpos {stop step : ℤ} (hstep : 0 < step) (hstop : stop ≤ 0) :
    pyRange 0 stop step = .ok [] := by
  have hne : step ≠ 0 := ne_of_gt hstep
  have hdiv : (stop - 0 + step - 1) / step < 1 :=
    (Int.ediv_lt_iff_lt_mul hstep).mpr (by omega)
  have h0 : ((stop - 0 + step - 1) / step).toNat = 0 := by omega
  unfold pyRange
  rw [if_neg hne, if_pos hstep, h0]
  rfl

/-- Unfolding of a successful Karplus-Strong iteration for a nonempty
delay line. -/
theorem ks_loop_succ (D n i : ℕ) (buf : List ℚ) (hD : D ≠ 0) :
    ks_loop D (n + 1) i buf =
      match ks_loop D n (i + 1)
          (buf.set (i % D) ((buf.getD (i % D) 0 + buf.getD ((i + 1) % D) 0) / 2)) with
      | .error e => .error e
      | .ok res => .ok (buf.getD (i % D) 0 :: res.1, res.2) := by
  simp [ks_loop, pyMod, hD]

/-- The Karplus-Strong loop emits one sample per iteration. -/
theorem ks_loop_length (D : ℕ) :
    ∀ (n i : ℕ) (buf out bufF : List ℚ),
      ks_loop D n i buf = .ok (out, bufF) → out.length = n := by
  intro n
  induction n with
  | zero =>
    intro i buf out bufF h
    simp only [ks_loop, Except.ok.injEq, Prod.mk.injEq] at h
    simp [← h.1]
  | succ n ih =>
    intro i buf out bufF h
    by_cases hD : D = 0
    · simp [ks_loop, pyMod, hD] at h
    · rw [ks_loop_succ D n i buf hD] at h
      cases hrec : ks_loop D n (i + 1)
          (buf.set (i % D) ((buf.getD (i % D) 0 + buf.getD ((i + 1) % D) 0) / 2)) with
      | error e => rw [hrec] at h; simp at h
      | ok p =>
        rw [hrec] at h
        simp only [Except.ok.injEq, Prod.mk.injEq] at h
        have hp := ih (i + 1) _ p.1 p.2 (by rw [hrec])
        rw [← h.1]
        simp [hp]

/-- Python `int` is the identity on integers. -/
theorem pyInt_intCast (z : ℤ) : pyInt (z : ℚ) = z := by
  unfold pyInt
  by_cases h : (0:ℚ) ≤ (z:ℚ)
  · rw [if_pos h, ratFloor_eq_floor, Int.floor_intCast]
  · rw [if_neg h, ratFloor_eq_floor]
    rw [show (-(z:ℚ)) = ((-z : ℤ) : ℚ) by push_cast; ring, Int.floor_intCast]
    ring

/-- Evaluate Python `int` at an exactly integral rational. -/
theorem pyInt_eval {q : ℚ} {z : ℤ} (h : q = (z : ℚ)) : pyInt q = z := by
  rw [h, pyInt_intCast]

/-- Evaluate Python `int` on a nonnegative rational bracketed by consecutive
integers. -/
theorem pyInt_floor_eval {q : ℚ} {z : ℤ} (h0 : 0 ≤ q) (h1 : (z : ℚ) ≤ q)
    (h2 : q < z + 1) : pyInt q = z := by
  rw [pyInt_of_nonneg h0]
  exact Int.floor_eq_iff.mpr ⟨h1, h2⟩

/-- Python `int` of a rational at least `1` is positive. -/
theorem pyInt_pos {q : ℚ} (h : 1 ≤ q) : 0 < pyInt q := by
  rw [pyInt_of_nonneg (le_trans zero_le_one h)]
  exact lt_of_lt_of_le zero_lt_one (Int.le_floor.mpr (by exact_mod_cast h))

/-- Evaluate `np.mod(x, 1)` given the integer part of `x`. -/
theorem np_mod1_eval {x : ℚ} {z : ℤ} (h1 : (z : ℚ) ≤ x) (h2 : x < z + 1) :
    np_mod1 x = x - z := by
  rw [np_mod1_eq_fract, Int.fract, Int.floor_eq_iff.mpr ⟨h1, h2⟩]

/-- The time base has `num_samples` entries. -/
theorem timeBase_length (sr dur : ℚ) :
    (timeBase sr dur).length = num_samples sr dur := by
  unfold timeBase np_linspace
  rw [List.length_map, List.length_range]

/-- `zip` only consumes the common prefix of its arguments. -/
theorem zip_take_min {α β : Type} :
    ∀ (l1 : List α) (l2 : List β),
      l1.zip l2 =
        (l1.take (min l1.length l2.length)).zip (l2.take (min l1.length l2.length))
  | [], l2 => by simp
  | a :: l1, [] => by simp
  | a :: l1, b :: l2 => by
    simp only [List.length_cons, Nat.succ_min_succ, List.take_succ_cons,
      List.zip_cons_cons, List.cons.injEq, true_and]
    exact zip_take_min l1 l2

/-- Bounds `m ≤ x ≤ M` on all delay-line entries are preserved by the
Karplus-Strong averaging loop and hold of every emitted sample. -/
theorem ks_loop_preserves_bounds (m M : ℚ) (D : ℕ) (hD : D ≠ 0) :
    ∀ (n i : ℕ) (buf : List ℚ), buf.length = D →
      (∀ x ∈ buf, m ≤ x ∧ x ≤ M) →
      ∀ out bufF, ks_loop D n i buf = .ok (out, bufF) →
        (∀ y ∈ out, m ≤ y ∧ y ≤ M) ∧ (∀ y ∈ bufF, m ≤ y ∧ y ≤ M) := by
  intro n
  induction n with
  | zero =>
    intro i buf hlen hbnd out bufF h
    simp only [ks_loop, Except.ok.injEq, Prod.mk.injEq] at h
    refine ⟨?_, ?_⟩
    · rw [← h.1]; intro y hy; exact absurd hy (List.not_mem_nil y)
    · rw [← h.2]; exact hbnd
  | succ n ih =>
    intro i buf hlen hbnd out bufF h
    rw [ks_loop_succ D n i buf hD] at h
    have hDpos : 0 < D := Nat.pos_of_ne_zero hD
    have hidx : i % D < buf.length := by rw [hlen]; exact Nat.mod_lt _ hDpos
    have hidx2 : (i + 1) % D < buf.length := by rw [hlen]; exact Nat.mod_lt _ hDpos
    have hout : buf.getD (i % D) 0 ∈ buf := by
      rw [List.getD_eq_getElem buf 0 hidx]; exact List.getElem_mem hidx
    have hnext : buf.getD ((i + 1) % D) 0 ∈ buf := by
      rw [List.getD_eq_getElem buf 0 hidx2]; exact List.getElem_mem hidx2
    have havg : m ≤ (buf.getD (i % D) 0 + buf.getD ((i + 1) % D) 0) / 2 ∧
        (buf.getD (i % D) 0 + buf.getD ((i + 1) % D) 0) / 2 ≤ M := by
      obtain ⟨h1, h2⟩ := hbnd _ hout
      obtain ⟨h3, h4⟩ := hbnd _ hnext
      constructor <;> linarith
    set buf2 := buf.set (i % D) ((buf.getD (i % D) 0 + buf.getD ((i + 1) % D) 0) / 2) with hbuf2
    have hlen2 : buf2.length = D := by rw [hbuf2, List.length_set, hlen]
    have hbnd2 : ∀ x ∈ buf2, m ≤ x ∧ x ≤ M := by
      intro x hx
      rcases List.mem_or_eq_of_mem_set hx with hmem | heq
      · exact hbnd x hmem
      · rw [heq]; exact havg
    cases hrec : ks_loop D n (i + 1) buf2 with
    | error e => rw [hrec] at h; simp at h
    | ok p =>
      rw [hrec] at h
      simp only [Except.ok.injEq, Prod.mk.injEq] at h
      obtain ⟨hrest, hfin⟩ := ih (i + 1) buf2 hlen2 hbnd2 p.1 p.2 (by rw [hrec])
      refine ⟨?_, ?_⟩
      · rw [← h.1]
        intro y hy
        rcases List.mem_cons.mp hy with rfl | hy2
        · exact hbnd _ hout
        · exact hrest y hy2
      · rw [← h.2]; exact hfin

/-- The Karplus-Strong loop with a zero-length delay line fails at its first
iteration with a modulo-by-zero error. -/
theorem ks_loop_zero_delay (n i : ℕ) (buf : List ℚ) :
    ks_loop 0 (n + 1) i buf = .error "ZeroDivisionError: integer modulo by zero" := rfl

/-! ## Claims -/

/-- C1 (counterexample): `GranularSynthesis(signal=[0,1,2,3], grain_size=2,
overlap=1)` is a misconfiguration (grain step `int(2 * (1-1)) = 0`), yet
construction succeeds (the constructor stores `overlap = 1` without
validation) and the error is raised only when `generate_signal` runs — so
configuration errors are NOT raised synchronously at construction time. -/
theorem granular_config_error_surfaces_at_generation_cex :
    (GranularSynthesis.mk [0, 1, 2, 3] 2 1 44100).overlap = 1 ∧
    (GranularSynthesis.mk [0, 1, 2, 3] 2 1 44100).generate_signal =
      .error "ValueError: range() arg 3 must not be zero" := by
  constructor
  · rfl
  · have hstep : pyInt (((2 : ℤ) : ℚ) * (1 - 1)) = 0 := pyInt_eval (by norm_num)
    simp only [GranularSynthesis.generate_signal]
    rw [hstep]
    rfl

/-- C1 (amended): constructors perform no validation, so a configuration
error is discovered only during generation: whenever the grain step
`int(grain_size * (1 - overlap))` is zero, `generate_signal` (not the
constructor) raises `ValueError` from `range`. -/
theorem granular_zero_step_generation_error (g : GranularSynthesis)
    (hstep : pyInt ((g.grain_size : ℚ) * (1 - g.overlap)) = 0) :
    g.generate_signal = .error "ValueError: range() arg 3 must not be zero" := by
  unfold GranularSynthesis.generate_signal
  rw [hstep]
  rfl

/-- Witness for `granular_zero_step_generation_error` at
`signal=[0,1,2,3], grain_size=2, overlap=1`. -/
theorem granular_zero_step_generation_error_witness :
    pyInt (((2 : ℤ) : ℚ) * (1 - 1)) = 0 ∧
    (GranularSynthesis.mk [0, 1, 2, 3] 2 1 44100).generate_signal =
      .error "ValueError: range() arg 3 must not be zero" :=
  ⟨pyInt_eval (by norm_num),
   granular_zero_step_generation_error (GranularSynthesis.mk [0, 1, 2, 3] 2 1 44100)
     (pyInt_eval (by norm_num))⟩

/-- C3 (counterexample): for `signal=[0,1]` (N = 2) and `grain_size = 4 > N`
with `overlap = 0`, zero grains are produced but generation does NOT return an
empty buffer: `np.concatenate` on the empty grain list raises `ValueError`. -/
theorem granular_large_grain_error_cex :
    (GranularSynthesis.mk [(0 : ℚ), 1] 4 0 44100).generate_signal =
      .error "ValueError: need at least one array to concatenate" := by
  simp only [GranularSynthesis.generate_signal]
  rw [pyRange_pos_nonpos (pyInt_pos (by norm_num)) (by decide)]
  rfl

/-- C3 (amended): whenever `grain_size > len(signal)` and the grain step is
positive, the grain loop runs zero times and `generate_signal` raises
`ValueError` from `np.concatenate` instead of returning an empty buffer. -/
theorem granular_large_grain_generation_error (g : GranularSynthesis)
    (hbig : (g.signal.length : ℤ) < g.grain_size)
    (hstep : 0 < pyInt ((g.grain_size : ℚ) * (1 - g.overlap))) :
    g.generate_signal = .error "ValueError: need at least one array to concatenate" := by
  unfold GranularSynthesis.generate_signal
  rw [pyRange_pos_nonpos hstep (by omega)]
  rfl

/-- Witness for `granular_large_grain_generation_error` at
`signal=[0,1], grain_size=4, overlap=0`. -/
theorem granular_large_grain_generation_error_witness :
    ((([(0 : ℚ), 1] : List ℚ).length : ℤ) < 4 ∧
      0 < pyInt (((4 : ℤ) : ℚ) * (1 - 0))) ∧
    (GranularSynthesis.mk [(0 : ℚ), 1] 4 0 44100).generate_signal =
      .error "ValueError: need at least one array to concatenate" :=
  ⟨⟨by decide, pyInt_pos (by norm_num)⟩,
   granular_large_grain_generation_error (GranularSynthesis.mk [(0 : ℚ), 1] 4 0 44100)
     (by decide) (pyInt_pos (by norm_num))⟩

/-- C8: the end-to-end granular scenario: `signal=[0..9]`, `grain_size=4`,
`overlap=0.5` gives step 2, grains at starts 0, 2, 4, and output
`[0,1,2,3,2,3,4,5,4,5,6,7]` of length 12. -/
theorem granular_scenario_example :
    pyInt (((4 : ℤ) : ℚ) * (1 - 1/2)) = 2 ∧
    pyRange 0 (10 - 4) 2 = .ok [0, 2, 4] ∧
    (GranularSynthesis.mk [0, 1, 2, 3, 4, 5, 6, 7, 8, 9] 4 (1/2) 44100).generate_signal =
      .ok [0, 1, 2, 3, 2, 3, 4, 5, 4, 5, 6, 7] := by
  have hstep : pyInt (((4 : ℤ) : ℚ) * (1 - 1/2)) = 2 := pyInt_eval (by norm_num)
  refine ⟨hstep, by rfl, ?_⟩
  simp only [GranularSynthesis.generate_signal]
  rw [hstep]
  rfl

/-- C2 (counterexample): at `sample_rate=100, frequency=60` the delay line has
length `int(100/60) = 1` while `round(100/60) = 2`, so the length is the
truncation, not the rounding; and at `frequency=150 > sample_rate` the length
is `0 < 1`, so the `>= 1` part fails as well. -/
theorem ks_delay_length_truncates_cex :
    ((KarplusStrong.mk 60 1 100).buffer (fun _ => 0)).length = 1 ∧
    round ((100 : ℚ) / 60) = 2 ∧ (1 : ℤ) ≠ 2 ∧
    (KarplusStrong.mk 150 1 100).delay_length = 0 := by
  refine ⟨?_, ?_, by decide, ?_⟩
  · have h1 : pyInt ((100 : ℚ) / 60) = 1 :=
      pyInt_floor_eval (by norm_num) (by norm_num) (by norm_num)
    simp only [KarplusStrong.buffer, KarplusStrong.delay_length]
    rw [h1]
    rfl
  · rw [round_eq, show (100 : ℚ) / 60 + 1/2 = 13/6 by norm_num]
    exact Int.floor_eq_iff.mpr ⟨by norm_num, by norm_num⟩
  · have h0 : pyInt ((100 : ℚ) / 150) = 0 :=
      pyInt_floor_eval (by norm_num) (by norm_num) (by norm_num)
    simp only [KarplusStrong.delay_length]
    exact h0

/-- C2 (amended): the delay line created by `generate_signal` has length
`int(sample_rate / frequency) = floor(sample_rate / frequency)` (truncation,
not rounding), and that length is `>= 1` if and only if
`frequency <= sample_rate`. -/
theorem ks_delay_length_floor (k : KarplusStrong) (rand : ℕ → ℚ)
    (hf : 0 < k.frequency) (hs : 0 < k.sample_rate) :
    ((k.buffer rand).length : ℤ) = ⌊k.sample_rate / k.frequency⌋ ∧
    ((1 : ℤ) ≤ ⌊k.sample_rate / k.frequency⌋ ↔ k.frequency ≤ k.sample_rate) := by
  have hq : 0 ≤ k.sample_rate / k.frequency := le_of_lt (div_pos hs hf)
  constructor
  · have hlen : (k.buffer rand).length = k.delay_length.toNat := by
      unfold KarplusStrong.buffer
      rw [List.length_map, List.length_range]
    rw [hlen]
    unfold KarplusStrong.delay_length
    rw [pyInt_of_nonneg hq, Int.toNat_of_nonneg (Int.floor_nonneg.mpr hq)]
  · rw [Int.le_floor]
    push_cast
    exact one_le_div hf

/-- Witness for `ks_delay_length_floor` at `frequency=60, sample_rate=100`. -/
theorem ks_delay_length_floor_witness :
    ((0 : ℚ) < 60 ∧ (0 : ℚ) < 100) ∧
    ((((KarplusStrong.mk 60 1 100).buffer (fun _ => 0)).length : ℤ) =
        ⌊(100 : ℚ) / 60⌋ ∧
      ((1 : ℤ) ≤ ⌊(100 : ℚ) / 60⌋ ↔ (60 : ℚ) ≤ 100)) :=
  ⟨⟨by norm_num, by norm_num⟩,
   ks_delay_length_floor (KarplusStrong.mk 60 1 100) (fun _ => 0)
     (by norm_num) (by norm_num)⟩

/-- C10: for `frequency > sample_rate > 0` the delay line has length
`int(sample_rate / frequency) = 0`; construction succeeds, but as soon as at
least one output sample is requested, `generate_signal` fails at its first
iteration with a modulo-by-zero error, so the delay-line-length `>= 1`
invariant is never established. -/
theorem ks_zero_delay_modulo_error (k : KarplusStrong) (rand : ℕ → ℚ)
    (hs : 0 < k.sample_rate) (hf : k.sample_rate < k.frequency)
    (hn : num_samples k.sample_rate k.duration ≠ 0) :
    k.delay_length = 0 ∧
    k.generate_signal rand = .error "ZeroDivisionError: integer modulo by zero" := by
  have hfpos : 0 < k.frequency := hs.trans hf
  have hq0 : 0 ≤ k.sample_rate / k.frequency := le_of_lt (div_pos hs hfpos)
  have hq1 : k.sample_rate / k.frequency < 1 := (div_lt_one hfpos).mpr hf
  have hdl : k.delay_length = 0 := by
    unfold KarplusStrong.delay_length
    rw [pyInt_of_nonneg hq0]
    exact Int.floor_eq_zero_iff.mpr ⟨hq0, hq1⟩
  refine ⟨hdl, ?_⟩
  obtain ⟨n, hn2⟩ := Nat.exists_eq_succ_of_ne_zero hn
  unfold KarplusStrong.generate_signal
  rw [hdl, hn2]
  rw [show ((0 : ℤ).toNat) = 0 from rfl, ks_loop_zero_delay]
  rfl

/-- Witness for `ks_zero_delay_modulo_error` at
`frequency=2, duration=1, sample_rate=1`. -/
theorem ks_zero_delay_modulo_error_witness :
    ((0 : ℚ) < 1 ∧ (1 : ℚ) < 2 ∧ num_samples 1 1 ≠ 0) ∧
    ((KarplusStrong.mk 2 1 1).delay_length = 0 ∧
      (KarplusStrong.mk 2 1 1).generate_signal (fun _ => 0) =
        .error "ZeroDivisionError: integer modulo by zero") := by
  have hnum : num_samples 1 1 ≠ 0 := by
    unfold num_samples
    rw [show ((1 : ℚ) * 1) = ((1 : ℤ) : ℚ) by norm_num, pyInt_intCast]
    decide
  exact ⟨⟨by norm_num, by norm_num, hnum⟩,
    ks_zero_delay_modulo_error (KarplusStrong.mk 2 1 1) (fun _ => 0)
      (by norm_num) (by norm_num) hnum⟩

/-- A successful Karplus-Strong generation emits exactly `num_samples`
samples. -/
theorem ks_generate_ok_length (k : KarplusStrong) (rand : ℕ → ℚ) (out : List ℚ)
    (h : k.generate_signal rand = .ok out) :
    out.length = num_samples k.sample_rate k.duration := by
  unfold KarplusStrong.generate_signal at h
  cases hrun : ks_loop k.delay_length.toNat (num_samples k.sample_rate k.duration) 0
      (k.buffer rand) with
  | error e => rw [hrun] at h; exact absurd h (by simp [Except.map])
  | ok p =>
    rw [hrun] at h
    simp only [Except.map, Except.ok.injEq] at h
    rw [← h]
    exact ks_loop_length _ _ _ _ p.1 p.2 (by rw [hrun])

/-- C4 (counterexample): at `sample_rate=10, duration=1/4` the time base is
`linspace(0, 1/4, 2, endpoint=False) = [0, 1/8]`, whose second instant `1/8`
is not `i / sample_rate = 1/10`; the instants are spaced `duration / n`, not
`1 / sample_rate`. -/
theorem time_base_step_cex :
    timeBase 10 (1/4) = [0, 1/8] ∧ ((1 : ℚ)/8 ≠ 1/10) := by
  constructor
  · have hn : num_samples 10 (1/4) = 2 := by
      unfold num_samples
      rw [show ((10:ℚ) * (1/4)) = 5/2 by norm_num,
        pyInt_floor_eval (z := 2) (by norm_num) (by norm_num) (by norm_num)]
      rfl
    unfold timeBase np_linspace
    rw [hn]
    norm_num [List.range_succ]
  · norm_num

/-- C4 (amended): the sample count is `n = floor(sample_rate * duration)` and
is shared by the additive, subtractive, FM and Karplus-Strong generators, but
the instants are `t_i = duration * i / n` (numpy `linspace` with the endpoint
excluded), which coincides with `i / sample_rate` exactly when
`sample_rate * duration` is an integer. -/
theorem time_base_spec (sr dur : ℚ) (hs : 0 < sr) (hd : 0 ≤ dur) :
    ((timeBase sr dur).length : ℤ) = ⌊sr * dur⌋ ∧
    (∀ i : ℕ, i < num_samples sr dur →
      (timeBase sr dur)[i]? = some (dur * (i : ℚ) / (num_samples sr dur : ℚ))) ∧
    (sr * dur = (num_samples sr dur : ℚ) →
      ∀ i : ℕ, i < num_samples sr dur →
        (timeBase sr dur)[i]? = some ((i : ℚ) / sr)) ∧
    (∀ (np_sin : ℚ → ℚ) (np_pi : ℚ) (freqs amps : List ℚ),
      ((AdditiveSynthesis.mk freqs amps dur sr).generate_signal np_sin np_pi).length =
        num_samples sr dur) ∧
    (∀ (np_sin : ℚ → ℚ) (np_pi cf mf mi : ℚ),
      ((FMSynthesis.mk cf mf mi dur sr).generate_signal np_sin np_pi).length =
        num_samples sr dur) ∧
    (∀ f c : ℚ, ((SubtractiveSynthesis.mk f dur sr c).sawtooth_wave).length =
        num_samples sr dur) ∧
    (∀ (f : ℚ) (rand : ℕ → ℚ) (out : List ℚ),
      (KarplusStrong.mk f dur sr).generate_signal rand = .ok out →
        out.length = num_samples sr dur) := by
  have hnn : 0 ≤ sr * dur := mul_nonneg hs.le hd
  have hget : ∀ i : ℕ, i < num_samples sr dur →
      (timeBase sr dur)[i]? = some (dur * (i : ℚ) / (num_samples sr dur : ℚ)) := by
    intro i hi
    unfold timeBase np_linspace
    rw [List.getElem?_map, List.getElem?_range hi]
    norm_num
  refine ⟨?_, hget, ?_, ?_, ?_, ?_, ?_⟩
  · rw [timeBase_length]
    unfold num_samples
    rw [pyInt_of_nonneg hnn, Int.toNat_of_nonneg (Int.floor_nonneg.mpr hnn)]
  · intro heq i hi
    rw [hget i hi]
    have hn_pos : 0 < (num_samples sr dur : ℚ) := by
      exact_mod_cast Nat.pos_of_ne_zero (by omega)
    have hdur : 0 < dur := by
      rcases lt_or_eq_of_le hd with h | h
      · exact h
      · exfalso
        have hz : (num_samples sr dur : ℚ) = 0 := by rw [← heq, ← h, mul_zero]
        rw [hz] at hn_pos
        norm_num at hn_pos
    have hsne : sr ≠ 0 := ne_of_gt hs
    have hdne : dur ≠ 0 := ne_of_gt hdur
    have hnne : (num_samples sr dur : ℚ) ≠ 0 := ne_of_gt hn_pos
    congr 1
    rw [← heq]
    field_simp
    ring
  · intro np_sin np_pi freqs amps
    unfold AdditiveSynthesis.generate_signal
    rw [List.length_map, timeBase_length]
  · intro np_sin np_pi cf mf mi
    unfold FMSynthesis.generate_signal
    rw [List.length_map, timeBase_length]
  · intro f c
    unfold SubtractiveSynthesis.sawtooth_wave
    rw [List.length_map, timeBase_length]
  · intro f rand out hout
    exact ks_generate_ok_length (KarplusStrong.mk f dur sr) rand out hout

/-- Witness for `time_base_spec` at `sample_rate=10, duration=1/4`. -/
theorem time_base_spec_witness :
    ((0:ℚ) < 10 ∧ (0:ℚ) ≤ 1/4) ∧
    (((timeBase 10 (1/4)).length : ℤ) = ⌊(10:ℚ) * (1/4)⌋ ∧
      (∀ i : ℕ, i < num_samples 10 (1/4) →
        (timeBase 10 (1/4))[i]? = some ((1:ℚ)/4 * (i : ℚ) / (num_samples 10 (1/4) : ℚ))) ∧
      ((10:ℚ) * (1/4) = (num_samples 10 (1/4) : ℚ) →
        ∀ i : ℕ, i < num_samples 10 (1/4) →
          (timeBase 10 (1/4))[i]? = some ((i : ℚ) / 10)) ∧
      (∀ (np_sin : ℚ → ℚ) (np_pi : ℚ) (freqs amps : List ℚ),
        ((AdditiveSynthesis.mk freqs amps (1/4) 10).generate_signal np_sin np_pi).length =
          num_samples 10 (1/4)) ∧
      (∀ (np_sin : ℚ → ℚ) (np_pi cf mf mi : ℚ),
        ((FMSynthesis.mk cf mf mi (1/4) 10).generate_signal np_sin np_pi).length =
          num_samples 10 (1/4)) ∧
      (∀ f c : ℚ, ((SubtractiveSynthesis.mk f (1/4) 10 c).sawtooth_wave).length =
          num_samples 10 (1/4)) ∧
      (∀ (f : ℚ) (rand : ℕ → ℚ) (out : List ℚ),
        (KarplusStrong.mk f (1/4) 10).generate_signal rand = .ok out →
          out.length = num_samples 10 (1/4))) :=
  ⟨⟨by norm_num, by norm_num⟩, time_base_spec 10 (1/4) (by norm_num) (by norm_num)⟩

/-- C5 (counterexample): for `wavetable=[10,20]`, `frequency=1`, `duration=1`,
`sample_rate=2` (so `n = 2`), the source uses `linspace(0, 1, 2)` WITH the
endpoint, giving phases `[0, 1]`, wrapped indices `[0, 0]` and output
`[10, 10]`; the spec phase law `p_i = frac((i/n) * frequency)` would give
phase `1/2` at `i = 1` and read `wavetable[1] = 20` instead. -/
theorem wavetable_phase_cex :
    (WavetableSynthesis.mk [10, 20] 1 1 2).generate_signal = [10, 10] ∧
    wavetableSpecSample (WavetableSynthesis.mk [10, 20] 1 1 2) 1 2 = 20 ∧
    ((10 : ℚ) ≠ 20) := by
  have hm0 : np_mod1 (0 : ℚ) = 0 := by
    rw [np_mod1_eval (z := 0) (by norm_num) (by norm_num)]; norm_num
  have hm1 : np_mod1 (1 : ℚ) = 0 := by
    rw [np_mod1_eval (z := 1) (by norm_num) (by norm_num)]; norm_num
  have hp0 : pyInt (0 : ℚ) = 0 := pyInt_eval (by norm_num)
  refine ⟨?_, ?_, by norm_num⟩
  · have hn : num_samples 2 1 = 2 := by
      unfold num_samples
      rw [show ((2:ℚ) * 1) = ((2:ℤ):ℚ) by norm_num, pyInt_intCast]
      rfl
    simp only [WavetableSynthesis.generate_signal]
    rw [hn]
    have hlin : np_linspace 0 1 2 true = [0, 1] := by
      norm_num [np_linspace, List.range_succ]
    rw [hlin]
    norm_num [hm0, hm1, hp0]
  · unfold wavetableSpecSample
    have hmhalf : np_mod1 ((1:ℚ)/2) = 1/2 := by
      rw [np_mod1_eval (z := 0) (by norm_num) (by norm_num)]; norm_num
    have hp1 : pyInt ((1:ℚ)) = 1 := pyInt_eval (by norm_num)
    norm_num [hmhalf]
    rw [hp1]
    rfl

/-- C5 (amended): for `n >= 2` output samples the wavetable output at index
`i` is `wavetable[int(frac((i/(n-1)) * frequency) * L)]`: the phase is tied to
`linspace(0, 1, n)` WITH its endpoint (denominator `n-1`), not to `i/n`. -/
theorem wavetable_phase_endpoint (w : WavetableSynthesis) (i : ℕ)
    (hn : 2 ≤ num_samples w.sample_rate w.duration)
    (hi : i < num_samples w.sample_rate w.duration) :
    w.generate_signal[i]? =
      some (w.wavetable.getD
        (pyInt (np_mod1 (((i : ℚ) / ((num_samples w.sample_rate w.duration : ℚ) - 1))
          * w.frequency) * w.wavetable.length)).toNat 0) := by
  unfold WavetableSynthesis.generate_signal np_linspace
  rw [List.getElem?_map, List.getElem?_map, List.getElem?_map, List.getElem?_range hi]
  have hn1 : ¬ (num_samples w.sample_rate w.duration ≤ 1) := by omega
  norm_num [hn1]

/-- Witness for `wavetable_phase_endpoint` at `wavetable=[10,20]`,
`frequency=1`, `duration=1`, `sample_rate=3`, index `i=1`. -/
theorem wavetable_phase_endpoint_witness :
    (2 ≤ num_samples 3 1 ∧ 1 < num_samples 3 1) ∧
    (WavetableSynthesis.mk [10, 20] 1 1 3).generate_signal[1]? =
      some (([10, 20] : List ℚ).getD
        (pyInt (np_mod1 (((1 : ℚ) / ((num_samples 3 1 : ℚ) - 1)) * 1)
          * ([10, 20] : List ℚ).length)).toNat 0) := by
  have hn : num_samples 3 1 = 3 := by
    unfold num_samples
    rw [show ((3:ℚ) * 1) = ((3:ℤ):ℚ) by norm_num, pyInt_intCast]
    rfl
  refine ⟨⟨by rw [hn]; norm_num, by rw [hn]; norm_num⟩, ?_⟩
  exact wavetable_phase_endpoint (WavetableSynthesis.mk [10, 20] 1 1 3) 1
    (by rw [hn]; norm_num) (by rw [hn]; norm_num)

/-- C6 (counterexample): near the end of a period the sawtooth is just above
`0`, not near `-0.5`: at `frequency=1`, `t=999/1000` the value is
`1/2000 > 0`, so the ramp descends from `0.5` towards `0`, never to `-0.5`. -/
theorem sawtooth_range_cex :
    sawtooth_sample 1 (999/1000) = 1/2000 ∧ (0 : ℚ) < 1/2000 := by
  constructor
  · unfold sawtooth_sample
    rw [show ((999:ℚ)/1000 * 1) = 999/1000 by norm_num,
      np_mod1_eval (z := 0) (by norm_num) (by norm_num)]
    norm_num
  · norm_num

/-- C6 (amended): the subtractive source is exactly
`s(t) = 0.5 * (1 - frac(t * frequency))` (the formula of line 63), and for
every positive frequency it is a downward ramp with values in `(0, 1/2]`
(from `0.5` exclusive of `0`, never reaching `-0.5`) repeating with period
`1/frequency`. -/
theorem sawtooth_formula_range_period (s : SubtractiveSynthesis) (f t : ℚ)
    (hf : 0 < f) :
    s.sawtooth_wave = (timeBase s.sample_rate s.duration).map (sawtooth_sample s.frequency) ∧
    0 < sawtooth_sample f t ∧ sawtooth_sample f t ≤ 1/2 ∧
    sawtooth_sample f (t + 1/f) = sawtooth_sample f t := by
  refine ⟨rfl, ?_, ?_, ?_⟩
  · unfold sawtooth_sample
    rw [np_mod1_eq_fract]
    have h := Int.fract_lt_one (t * f)
    linarith
  · unfold sawtooth_sample
    rw [np_mod1_eq_fract]
    have h := Int.fract_nonneg (t * f)
    linarith
  · unfold sawtooth_sample
    rw [np_mod1_eq_fract, np_mod1_eq_fract]
    rw [show (t + 1/f) * f = t * f + 1 by
      have hne : f ≠ 0 := ne_of_gt hf
      field_simp]
    rw [Int.fract_add_one]

/-- Witness for `sawtooth_formula_range_period` at `frequency=1`, `t=0`. -/
theorem sawtooth_formula_range_period_witness :
    (0:ℚ) < 1 ∧
    ((SubtractiveSynthesis.mk 440 1 44100 1000).sawtooth_wave =
        (timeBase 44100 1).map (sawtooth_sample 440) ∧
      0 < sawtooth_sample 1 0 ∧ sawtooth_sample 1 0 ≤ 1/2 ∧
      sawtooth_sample 1 (0 + 1/1) = sawtooth_sample 1 0) :=
  ⟨by norm_num,
   sawtooth_formula_range_period (SubtractiveSynthesis.mk 440 1 44100 1000) 1 0 (by norm_num)⟩

/-- C7: for every Karplus-Strong run over a nonempty delay line whose initial
values lie in `[-1, 1)`, every emitted sample and every final delay-line entry
stays within any interval `[m, M]` containing all initial entries — in
particular within the interval spanned by the minimum and maximum of the
initial buffer — because the in-place update
`buffer[i % D] = 0.5 * (buffer[i % D] + buffer[(i+1) % D])` averages two
in-range values and is therefore non-expansive; the output never grows. -/
theorem ks_feedback_bounded (k : KarplusStrong) (rand : ℕ → ℚ) (m M : ℚ)
    (out bufF : List ℚ)
    (hD : k.delay_length.toNat ≠ 0)
    (_hinit : ∀ x ∈ k.buffer rand, -1 ≤ x ∧ x < 1)
    (hbnd : ∀ x ∈ k.buffer rand, m ≤ x ∧ x ≤ M)
    (hrun : ks_loop k.delay_length.toNat (num_samples k.sample_rate k.duration) 0
      (k.buffer rand) = .ok (out, bufF)) :
    k.generate_signal rand = .ok out ∧
    (∀ y ∈ out, m ≤ y ∧ y ≤ M) ∧ (∀ y ∈ bufF, m ≤ y ∧ y ≤ M) := by
  have hlen : (k.buffer rand).length = k.delay_length.toNat := by
    unfold KarplusStrong.buffer
    rw [List.length_map, List.length_range]
  obtain ⟨h1, h2⟩ := ks_loop_preserves_bounds m M _ hD
    (num_samples k.sample_rate k.duration) 0 (k.buffer rand) hlen hbnd out bufF hrun
  refine ⟨?_, h1, h2⟩
  unfold KarplusStrong.generate_signal
  rw [hrun]
  rfl

/-- Witness for `ks_feedback_bounded`: `frequency=50, duration=1/50,
sample_rate=100` (delay line of length 2, two samples) with the injected
random stream `j ↦ (j+1)/10`, initial buffer `[-4/5, -3/5]`, bounds
`m = -4/5`, `M = -3/5`. -/
theorem ks_feedback_bounded_witness :
    ((KarplusStrong.mk 50 (1/50) 100).delay_length.toNat ≠ 0 ∧
      (∀ x ∈ (KarplusStrong.mk 50 (1/50) 100).buffer (fun j => ((j:ℚ)+1)/10),
        -1 ≤ x ∧ x < 1) ∧
      (∀ x ∈ (KarplusStrong.mk 50 (1/50) 100).buffer (fun j => ((j:ℚ)+1)/10),
        -4/5 ≤ x ∧ x ≤ -3/5)) ∧
    ((KarplusStrong.mk 50 (1/50) 100).generate_signal (fun j => ((j:ℚ)+1)/10) =
        .ok [-4/5, -3/5] ∧
      (∀ y ∈ ([-4/5, -3/5] : List ℚ), -4/5 ≤ y ∧ y ≤ -3/5) ∧
      (∀ y ∈ ([-7/10, -13/20] : List ℚ), -4/5 ≤ y ∧ y ≤ -3/5)) := by
  have hd2 : pyInt ((100:ℚ)/50) = 2 := pyInt_eval (by norm_num)
  have hDred : (KarplusStrong.mk 50 (1/50) 100).delay_length.toNat = 2 := by
    simp only [KarplusStrong.delay_length]
    rw [hd2]
    rfl
  have hbuf : (KarplusStrong.mk 50 (1/50) 100).buffer (fun j => ((j:ℚ)+1)/10) =
      [-4/5, -3/5] := by
    unfold KarplusStrong.buffer
    rw [hDred]
    norm_num [List.range_succ]
  have hn2 : num_samples 100 (1/50) = 2 := by
    unfold num_samples
    rw [show ((100:ℚ) * (1/50)) = ((2:ℤ):ℚ) by norm_num, pyInt_intCast]
    rfl
  have hrun0 : ks_loop 2 2 0 [(-4:ℚ)/5, -3/5] = .ok ([-4/5, -3/5], [-7/10, -13/20]) := by
    norm_num [ks_loop, pyMod, List.getD_cons_zero, List.getD_cons_succ,
      List.set_cons_zero, List.set_cons_succ]
  have hrun : ks_loop ((KarplusStrong.mk 50 (1/50) 100).delay_length.toNat)
      (num_samples 100 (1/50)) 0
      ((KarplusStrong.mk 50 (1/50) 100).buffer (fun j => ((j:ℚ)+1)/10)) =
      .ok ([-4/5, -3/5], [-7/10, -13/20]) := by
    rw [hDred, hn2, hbuf]
    exact hrun0
  have hinit : ∀ x ∈ (KarplusStrong.mk 50 (1/50) 100).buffer (fun j => ((j:ℚ)+1)/10),
      -1 ≤ x ∧ x < 1 := by
    rw [hbuf]
    norm_num [List.forall_mem_cons]
  have hbnd : ∀ x ∈ (KarplusStrong.mk 50 (1/50) 100).buffer (fun j => ((j:ℚ)+1)/10),
      -4/5 ≤ x ∧ x ≤ -3/5 := by
    rw [hbuf]
    norm_num [List.forall_mem_cons]
  have hD : (KarplusStrong.mk 50 (1/50) 100).delay_length.toNat ≠ 0 := by
    rw [hDred]; decide
  exact ⟨⟨hD, hinit, hbnd⟩,
    ks_feedback_bounded (KarplusStrong.mk 50 (1/50) 100) (fun j => ((j:ℚ)+1)/10)
      (-4/5) (-3/5) [-4/5, -3/5] [-7/10, -13/20] hD hinit hbnd hrun⟩

/-- C9: mismatched `frequencies`/`amplitudes` lengths are not an error:
construction succeeds (the constructor stores the lists unvalidated) and
`generate_signal` silently sums over only the first
`min(len(frequencies), len(amplitudes))` pairs — `zip` drops the extra
entries of the longer list. -/
theorem additive_zip_truncation (np_sin : ℚ → ℚ) (np_pi : ℚ)
    (freqs amps : List ℚ) (dur sr : ℚ)
    (_h : freqs.length ≠ amps.length) :
    (AdditiveSynthesis.mk freqs amps dur sr).generate_signal np_sin np_pi =
      (AdditiveSynthesis.mk (freqs.take (min freqs.length amps.length))
          (amps.take (min freqs.length amps.length)) dur sr).generate_signal
        np_sin np_pi := by
  simp only [AdditiveSynthesis.generate_signal]
  rw [zip_take_min freqs amps]

/-- Witness for `additive_zip_truncation` at `frequencies=[1,2]`,
`amplitudes=[5]`. -/
theorem additive_zip_truncation_witness :
    (([(1:ℚ), 2] : List ℚ).length ≠ ([(5:ℚ)] : List ℚ).length) ∧
    (AdditiveSynthesis.mk [(1:ℚ), 2] [(5:ℚ)] 1 1).generate_signal (fun x => x) 3 =
      (AdditiveSynthesis.mk ([(1:ℚ), 2].take (min ([(1:ℚ), 2] : List ℚ).length
            ([(5:ℚ)] : List ℚ).length))
          ([(5:ℚ)].take (min ([(1:ℚ), 2] : List ℚ).length ([(5:ℚ)] : List ℚ).length))
          1 1).generate_signal (fun x => x) 3 :=
  ⟨by decide,
   additive_zip_truncation (fun x => x) 3 [(1:ℚ), 2] [(5:ℚ)] 1 1 (by decide)⟩
